import Mathlib

/-
  Verification of the toy-editor timeline core.

  Shallow embedding of the time-domain model of the browser video timeline
  editor: clip geometry (`timelineUtils.ts`), the VirtualTimelineManager's
  pure time-mapping functions and its stateful play/pause/master-clock
  machinery (`VirtualTimelineManager.ts`), the edit operations
  (`SceneEditorOperations.ts`, which exists in the repository in two
  variants: one that recomputes start times after each structural edit and
  one that only renumbers positions), the trim-drag proposal computation
  (`TimelineControls.tsx` / TrimHandles) and the rearrange insertion-index
  computation (`RearrangeDragHandler`).

  Numbers are modelled as rationals (ℚ).  Optional numeric fields of
  `SceneEditorCell` (`startTime?`, `duration?`, `trimStart?`, `trimEnd?`)
  are modelled as plain rationals with `undefined` represented by 0; the
  source coalesces every read of these fields with `|| 0`, which maps both
  `undefined` and `0` to `0`, so this representation is faithful for all
  defined numeric values.
-/

namespace ToyEditor

/-- Node kind, from `src/types/timeline.ts` (`NodeType`). -/
inductive NodeType where
  | image
  | video
deriving DecidableEq, Repr

/-- Media node, from `src/types/timeline.ts`; only the fields read by the
timeline core are modelled (`id`, `type`, `data.duration`). -/
structure MediaNode where
  id : String
  nodeType : NodeType
  dataDuration : Option ℚ
deriving DecidableEq, Repr

/-- A clip on the timeline, from `src/types/timeline.ts`
(`SceneEditorCell`). -/
structure SceneEditorCell where
  id : String
  mediaNodeId : String
  position : Nat
  startTime : ℚ
  duration : ℚ
  trimStart : ℚ
  trimEnd : ℚ
deriving DecidableEq, Repr

instance : Inhabited SceneEditorCell :=
  ⟨{ id := "", mediaNodeId := "", position := 0, startTime := 0,
     duration := 0, trimStart := 0, trimEnd := 0 }⟩

/-- Embeds `getEffectiveDuration` from `timelineUtils.ts` (the same formula is
inlined in `VirtualTimelineManager.ts`, `SceneEditorOperations.ts`,
`RearrangeDragHandler` and `TrimHandles`):
`Math.max(0.1, duration - trimStart - trimEnd)`. -/
def getEffectiveDuration (cell : SceneEditorCell) : ℚ :=
  max (1/10) (cell.duration - cell.trimStart - cell.trimEnd)

/-- Start time of the `i`-th clip of a list (out-of-range reads give the
default cell, whose start time is 0). -/
def cellStart (cells : List SceneEditorCell) (i : Nat) : ℚ :=
  (cells.getD i default).startTime

/-- Diagnostics produced by the two `validateTimelineIntegrity` functions.
The source pushes interpolated message strings; each distinct message
template is modelled as a constructor carrying the interpolated clip ids. -/
inductive IntegrityError where
  | overlap (currentId nextId : String)
  | negativeEffectiveDuration (id : String)
  | negativeStartTime (id : String)
deriving DecidableEq, Repr

/-- Result shape of `validateTimelineIntegrity`. -/
structure ValidationResult where
  isValid : Bool
  errors : List IntegrityError
deriving DecidableEq, Repr

/-- Whether an integrity error is the negative-effective-duration
diagnostic. -/
def IntegrityError.isNegEffDur : IntegrityError → Bool
  | .negativeEffectiveDuration _ => true
  | _ => false

/-- Overlap scan shared by both validators: for each adjacent pair, report
an overlap when `current.startTime + effectiveDuration > next.startTime`. -/
def overlapErrors : List SceneEditorCell → List IntegrityError
  | [] => []
  | [_] => []
  | a :: b :: rest =>
    (if a.startTime + getEffectiveDuration a > b.startTime
      then [IntegrityError.overlap a.id b.id] else [])
      ++ overlapErrors (b :: rest)

/-- Negative-effective-duration scan shared by both validators. -/
def negativeEffDurErrors (cells : List SceneEditorCell) : List IntegrityError :=
  cells.filterMap fun c =>
    if getEffectiveDuration c < 0
      then some (IntegrityError.negativeEffectiveDuration c.id) else none

/-- Negative-start-time scan (VTM validator only). -/
def negativeStartTimeErrors (cells : List SceneEditorCell) : List IntegrityError :=
  cells.filterMap fun c =>
    if c.startTime < 0 then some (IntegrityError.negativeStartTime c.id) else none

/-- Stable insertion of a cell into a list ascending by `startTime`; used to
model the stable ascending `Array.prototype.sort` of the source. -/
def insertByStartTime (c : SceneEditorCell) :
    List SceneEditorCell → List SceneEditorCell
  | [] => [c]
  | d :: rest =>
    if d.startTime < c.startTime then d :: insertByStartTime c rest
    else c :: d :: rest

/-- Stable ascending sort by `startTime`, modelling
`[...cells].sort((a, b) => (a.startTime || 0) - (b.startTime || 0))`. -/
def sortByStartTime (cells : List SceneEditorCell) : List SceneEditorCell :=
  cells.foldr insertByStartTime []

namespace Geometry

/-- Embeds `calculateTotalDuration(cells, nodes)` from `timelineUtils.ts`: 0 for an
empty list, otherwise the sum of effective durations of the cells whose
media node is found in `nodes` (cells whose node lookup fails are skipped
by the early `return` in the `forEach`). -/
def calculateTotalDuration (cells : List SceneEditorCell)
    (nodes : List MediaNode) : ℚ :=
  if cells = [] then 0
  else
    cells.foldl
      (fun acc c =>
        if (nodes.find? fun n => n.id == c.mediaNodeId).isSome
          then acc + getEffectiveDuration c else acc)
      0

/-- Embeds `validateTimelineIntegrity(cells, nodes)` from `timelineUtils.ts`:
overlap scan over the cells sorted by start time, then the
negative-effective-duration scan over the cells in the given order (the
`nodes` argument is not read by this function in the source). -/
def validateTimelineIntegrity (cells : List SceneEditorCell)
    (_nodes : List MediaNode) : ValidationResult :=
  let errors := overlapErrors (sortByStartTime cells) ++ negativeEffDurErrors cells
  { isValid := errors = [], errors := errors }

end Geometry

namespace VTM

/-- Embeds `ClipPosition` from `VirtualTimelineManager.ts`. -/
structure ClipPosition where
  clipIndex : Nat
  clipTime : ℚ
  clip : SceneEditorCell
  clipStartTime : ℚ
  clipEndTime : ℚ
deriving DecidableEq, Repr

/-- Embeds `VirtualTimelineManagerImpl.calculateTotalDuration`: 0 for an empty
list, otherwise the running maximum (from 0) of
`startTime + effectiveDuration` over all cells. -/
def calculateTotalDuration (cells : List SceneEditorCell) : ℚ :=
  if cells = [] then 0
  else cells.foldl (fun m c => max m (c.startTime + getEffectiveDuration c)) 0

/-- The scan loop of `globalTimeToClipPosition`: for each cell in order,
return it if the clamped time is within epsilon (0.001) of its start, or
strictly inside its `[startTime, startTime + effectiveDuration)` interval. -/
def findClip : List SceneEditorCell → ℚ → Nat → Option ClipPosition
  | [], _, _ => none
  | cell :: rest, clampedTime, i =>
    if |clampedTime - cell.startTime| < 1/1000 then
      some { clipIndex := i, clipTime := 0, clip := cell,
             clipStartTime := cell.startTime,
             clipEndTime := cell.startTime + getEffectiveDuration cell }
    else if cell.startTime ≤ clampedTime
        ∧ clampedTime < cell.startTime + getEffectiveDuration cell then
      some { clipIndex := i, clipTime := clampedTime - cell.startTime, clip := cell,
             clipStartTime := cell.startTime,
             clipEndTime := cell.startTime + getEffectiveDuration cell }
    else findClip rest clampedTime (i + 1)

/-- Embeds `globalTimeToClipPosition` from `VirtualTimelineManager.ts`, with the
manager's `cells` and `totalDuration` state passed explicitly.  Clamps the
query to `[0, totalDuration]`, scans the cells, then handles the
end-of-timeline case, returning `none` only when no branch matches. -/
def globalTimeToClipPosition (cells : List SceneEditorCell)
    (totalDuration globalTime : ℚ) : Option ClipPosition :=
  match findClip cells (max 0 (min globalTime totalDuration)) 0 with
  | some cp => some cp
  | none =>
    if totalDuration ≤ max 0 (min globalTime totalDuration) ∧ cells ≠ [] then
      some { clipIndex := cells.length - 1,
             clipTime := getEffectiveDuration (cells.getD (cells.length - 1) default),
             clip := cells.getD (cells.length - 1) default,
             clipStartTime := (cells.getD (cells.length - 1) default).startTime,
             clipEndTime := (cells.getD (cells.length - 1) default).startTime
               + getEffectiveDuration (cells.getD (cells.length - 1) default) }
    else none

/-- Embeds `clipPositionToGlobalTime` from `VirtualTimelineManager.ts`:
out-of-range clip indices map to 0, otherwise the clip time is clamped to
`[0, effectiveDuration]` and offset by the clip's start time. -/
def clipPositionToGlobalTime (cells : List SceneEditorCell)
    (clipIndex : Int) (clipTime : ℚ) : ℚ :=
  if clipIndex < 0 ∨ (cells.length : Int) ≤ clipIndex then 0
  else
    (cells.getD clipIndex.toNat default).startTime
      + max 0 (min clipTime (getEffectiveDuration (cells.getD clipIndex.toNat default)))

/-- Embeds `VirtualTimelineManagerImpl.validateTimelineIntegrity`: overlap scan
over the manager's cells (already sorted by `updateTimeline`), then the
negative-effective-duration scan, then the negative-start-time scan. -/
def validateTimelineIntegrity (cells : List SceneEditorCell) : ValidationResult :=
  let errors := overlapErrors cells ++ negativeEffDurErrors cells
    ++ negativeStartTimeErrors cells
  { isValid := errors = [], errors := errors }

end VTM

namespace Ops

/-- The position-renumbering `forEach` shared by the edit operations:
`cell.position = index` in array order. -/
def renumberPositionsFrom : Nat → List SceneEditorCell → List SceneEditorCell
  | _, [] => []
  | i, c :: rest => { c with position := i } :: renumberPositionsFrom (i + 1) rest

/-- The start-time recomputation `forEach` of the edit operations in the
variant of `SceneEditorOperations.ts` that carries the `CRITICAL FIX`
comments: each cell's `startTime` is set to the running sum of preceding
effective durations. -/
def recomputeStartTimesFrom : ℚ → List SceneEditorCell → List SceneEditorCell
  | _, [] => []
  | t, c :: rest =>
    { c with startTime := t } :: recomputeStartTimesFrom (t + getEffectiveDuration c) rest

/-- Embeds `RemoveSceneEditorCellOperation.execute` (recomputing variant): filter
out the cell by id, renumber positions, recompute start times. -/
def removeCell (cellId : String) (cells : List SceneEditorCell) :
    List SceneEditorCell :=
  recomputeStartTimesFrom 0
    (renumberPositionsFrom 0 (cells.filter fun c => c.id != cellId))

/-- Embeds `TrimSceneEditorCellOperation.execute` (recomputing variant): overwrite
`trimStart`/`trimEnd` of the addressed cell with the given values (no
clamping is applied here), then recompute start times. -/
def trimCell (cellId : String) (trimStart trimEnd : ℚ)
    (cells : List SceneEditorCell) : List SceneEditorCell :=
  recomputeStartTimesFrom 0
    (cells.map fun c =>
      if c.id == cellId then { c with trimStart := trimStart, trimEnd := trimEnd }
      else c)

/-- Embeds `Array.prototype.splice(n, 0, x)` insertion: insert at index `n`,
appending when `n` is beyond the end. -/
def insertAt (n : Nat) (x : SceneEditorCell) (l : List SceneEditorCell) :
    List SceneEditorCell :=
  l.take n ++ x :: l.drop n

/-- Embeds `MoveSceneEditorCellOperation.execute` (recomputing variant): when the
cell is not found the operation returns without updating the canvas
(modelled as `none`); otherwise splice it out, splice it in at the new
position, renumber positions and recompute start times. -/
def moveCell (cellId : String) (newPosition : Nat)
    (cells : List SceneEditorCell) : Option (List SceneEditorCell) :=
  match cells.findIdx? (fun c => c.id == cellId) with
  | none => none
  | some cellIndex =>
    match cells.get? cellIndex with
    | none => none
    | some movedCell =>
      some (recomputeStartTimesFrom 0
        (renumberPositionsFrom 0
          (insertAt newPosition movedCell (cells.eraseIdx cellIndex))))

/-- Embeds `AddSceneEditorCellOperation.execute` (recomputing variant): build a new
cell (zero duration and trims; the generated unique id is modelled as the
parameter `newId`), splice it in at the requested position (default: end),
renumber positions and recompute start times. -/
def addCell (newId mediaNodeId : String) (position : Option Nat)
    (cells : List SceneEditorCell) : List SceneEditorCell :=
  let newPosition := position.getD cells.length
  let newCell : SceneEditorCell :=
    { id := newId, mediaNodeId := mediaNodeId, position := newPosition,
      startTime := 0, duration := 0, trimStart := 0, trimEnd := 0 }
  recomputeStartTimesFrom 0
    (renumberPositionsFrom 0 (insertAt newPosition newCell cells))

end Ops

namespace OpsSrc

/-- Embeds `RemoveSceneEditorCellOperation.execute` from
`src/operations/SceneEditorOperations.ts` (the variant without the
start-time recomputation): filter out the cell by id and renumber
positions only; `startTime` values are left untouched. -/
def removeCell (cellId : String) (cells : List SceneEditorCell) :
    List SceneEditorCell :=
  Ops.renumberPositionsFrom 0 (cells.filter fun c => c.id != cellId)

end OpsSrc

/-- The spec's no-gap/no-overlap invariant over a clip list: every adjacent
pair in array order satisfies `startTime + effectiveDuration = nextStart`
within `1e-6`, and the first clip starts at time 0. -/
def noGapNoOverlap (cells : List SceneEditorCell) : Prop :=
  (∀ i < cells.length - 1,
      |cellStart cells i + getEffectiveDuration (cells.getD i default)
        - cellStart cells (i + 1)| ≤ 1/1000000)
  ∧ (cells ≠ [] → cellStart cells 0 = 0)

/-- Exact cumulative-start-time property: starting from base time `t`, each
clip's `startTime` equals `t` plus the effective durations of the clips
before it.  `chainedFrom 0 cells` is the spec's consistency invariant. -/
def chainedFrom : ℚ → List SceneEditorCell → Prop
  | _, [] => True
  | t, c :: rest => c.startTime = t ∧ chainedFrom (t + getEffectiveDuration c) rest

instance decChainedFrom :
    (t : ℚ) → (l : List SceneEditorCell) → Decidable (chainedFrom t l)
  | _, [] => .isTrue trivial
  | t, c :: rest =>
    have : Decidable (chainedFrom (t + getEffectiveDuration c) rest) :=
      decChainedFrom _ rest
    decidable_of_iff
      (c.startTime = t ∧ chainedFrom (t + getEffectiveDuration c) rest) Iff.rfl

theorem le_getEffectiveDuration (c : SceneEditorCell) :
    1/10 ≤ getEffectiveDuration c :=
  le_max_left _ _

theorem getEffectiveDuration_pos (c : SceneEditorCell) :
    0 < getEffectiveDuration c :=
  lt_of_lt_of_le (by norm_num) (le_getEffectiveDuration c)

theorem chainedFrom_recompute (l : List SceneEditorCell) :
    ∀ t : ℚ, chainedFrom t (Ops.recomputeStartTimesFrom t l) := by
  induction l with
  | nil => intro t; trivial
  | cons c rest ih =>
    intro t
    exact ⟨rfl, ih (t + getEffectiveDuration c)⟩

theorem chainedFrom_cellStart (l : List SceneEditorCell) :
    ∀ t : ℚ, chainedFrom t l → ∀ i, i + 1 < l.length →
      cellStart l (i + 1) = cellStart l i + getEffectiveDuration (l.getD i default) := by
  induction l with
  | nil => intro t _ i hi; simp at hi
  | cons c rest ih =>
    intro t h i hi
    obtain ⟨hc, hrest⟩ := h
    cases i with
    | zero =>
      cases rest with
      | nil => simp at hi
      | cons d rest' =>
        obtain ⟨hd, _⟩ := hrest
        simp [cellStart, hd, hc]
    | succ j =>
      have hj : j + 1 < rest.length := by
        simpa [Nat.succ_lt_succ_iff] using hi
      have := ih _ hrest j hj
      simpa [cellStart] using this

theorem chainedFrom_head (l : List SceneEditorCell) (t : ℚ)
    (h : chainedFrom t l) (hne : l ≠ []) : cellStart l 0 = t := by
  cases l with
  | nil => exact absurd rfl hne
  | cons c rest => simpa [cellStart] using h.1

theorem chainedFrom_noGapNoOverlap (l : List SceneEditorCell)
    (h : chainedFrom 0 l) : noGapNoOverlap l := by
  constructor
  · intro i hi
    have hi' : i + 1 < l.length := by omega
    rw [chainedFrom_cellStart l 0 h i hi']
    simp
  · intro hne
    exact chainedFrom_head l 0 h hne

/-- Spec formula for total duration: "max over cells of
`startTime + effectiveDuration`; 0 for empty list".  Written from the
spec's words, for comparison with the two implementations. -/
def specTotalDuration (cells : List SceneEditorCell) : ℚ :=
  (cells.map fun c => c.startTime + getEffectiveDuration c).foldr max 0

/-- Sum of the effective durations of the cells whose media node is present
in `nodes`: what the geometry-layer `calculateTotalDuration` computes. -/
def presentEffDurSum (cells : List SceneEditorCell) (nodes : List MediaNode) : ℚ :=
  ((cells.filter fun c => (nodes.find? fun n => n.id == c.mediaNodeId).isSome).map
    getEffectiveDuration).sum

theorem foldr_max_nonneg (l : List ℚ) : 0 ≤ l.foldr max 0 := by
  induction l with
  | nil => simp
  | cons x rest ih => exact le_trans ih (le_max_right x _)

theorem foldl_max_eq_foldr (l : List SceneEditorCell) :
    ∀ a : ℚ, 0 ≤ a →
      l.foldl (fun m c => max m (c.startTime + getEffectiveDuration c)) a
        = max a ((l.map fun c => c.startTime + getEffectiveDuration c).foldr max 0) := by
  induction l with
  | nil => intro a ha; simp [max_eq_left ha]
  | cons c rest ih =>
    intro a ha
    have ha' : 0 ≤ max a (c.startTime + getEffectiveDuration c) :=
      le_trans ha (le_max_left _ _)
    simp only [List.foldl_cons, List.map_cons, List.foldr_cons]
    rw [ih _ ha', max_assoc]

theorem vtm_calculateTotalDuration_eq_spec (cells : List SceneEditorCell) :
    VTM.calculateTotalDuration cells = specTotalDuration cells := by
  unfold VTM.calculateTotalDuration specTotalDuration
  by_cases h : cells = []
  · simp [h]
  · rw [if_neg h, foldl_max_eq_foldr _ _ le_rfl]
    exact max_eq_right (foldr_max_nonneg _)

theorem geometry_foldl_eq_sum (l : List SceneEditorCell) (nodes : List MediaNode) :
    ∀ a : ℚ,
      l.foldl
        (fun acc c =>
          if (nodes.find? fun n => n.id == c.mediaNodeId).isSome
            then acc + getEffectiveDuration c else acc) a
        = a + presentEffDurSum l nodes := by
  induction l with
  | nil => intro a; simp [presentEffDurSum]
  | cons c rest ih =>
    intro a
    by_cases h : (nodes.find? fun n => n.id == c.mediaNodeId).isSome
    · simp only [List.foldl_cons, if_pos h, ih]
      simp [presentEffDurSum, List.filter_cons, h]
      ring
    · simp only [List.foldl_cons, if_neg h, ih]
      simp [presentEffDurSum, List.filter_cons, h]

theorem geometry_calculateTotalDuration_eq_sum (cells : List SceneEditorCell)
    (nodes : List MediaNode) :
    Geometry.calculateTotalDuration cells nodes = presentEffDurSum cells nodes := by
  unfold Geometry.calculateTotalDuration
  by_cases h : cells = []
  · simp [h, presentEffDurSum]
  · rw [if_neg h, geometry_foldl_eq_sum]
    ring

/-- Concrete clip used to separate the two total-duration functions: its
media reference resolves to no node. -/
def c4cell : SceneEditorCell :=
  { id := "c4", mediaNodeId := "missing", position := 0, startTime := 0,
    duration := 5, trimStart := 0, trimEnd := 0 }

/-- C4 (counterexample): on a one-clip list whose media node is missing,
the geometry-layer `calculateTotalDuration` returns 0 while the claimed
formula (max over clips of `startTime + effectiveDuration`) gives 5, so the
claim that both total-duration functions compute that formula for every
input, including clips with a missing media reference, is false. -/
theorem c4_counterexample :
    Geometry.calculateTotalDuration [c4cell] [] = 0
    ∧ specTotalDuration [c4cell] = 5
    ∧ Geometry.calculateTotalDuration [c4cell] [] ≠ specTotalDuration [c4cell] := by
  have h1 : Geometry.calculateTotalDuration [c4cell] [] = 0 := by decide
  have h2 : specTotalDuration [c4cell] = 5 := by
    norm_num [specTotalDuration, c4cell, getEffectiveDuration]
  exact ⟨h1, h2, by rw [h1, h2]; norm_num⟩

/-- C4 (amended): the VTM-layer `calculateTotalDuration` returns the
maximum over all clips of `startTime + effectiveDuration` (0 for the empty
list) for every input; the geometry-layer `calculateTotalDuration` instead
returns the sum of the effective durations of the clips whose media node is
present, skipping clips with a missing media reference and ignoring
`startTime`. -/
theorem c4_totalDuration :
    ∀ (cells : List SceneEditorCell) (nodes : List MediaNode),
      VTM.calculateTotalDuration cells = specTotalDuration cells
      ∧ Geometry.calculateTotalDuration cells nodes = presentEffDurSum cells nodes :=
  fun cells nodes =>
    ⟨vtm_calculateTotalDuration_eq_spec cells,
     geometry_calculateTotalDuration_eq_sum cells nodes⟩

theorem negativeEffDurErrors_eq_nil (cells : List SceneEditorCell) :
    negativeEffDurErrors cells = [] := by
  unfold negativeEffDurErrors
  rw [List.filterMap_eq_nil_iff]
  intro c _
  rw [if_neg (not_lt.mpr (le_of_lt (getEffectiveDuration_pos c)))]

theorem overlapErrors_filter_negEff (l : List SceneEditorCell) :
    (overlapErrors l).filter IntegrityError.isNegEffDur = [] := by
  induction l with
  | nil => simp [overlapErrors]
  | cons a rest ih =>
    cases rest with
    | nil => simp [overlapErrors]
    | cons b rest' =>
      unfold overlapErrors
      rw [List.filter_append, ih]
      by_cases h : a.startTime + getEffectiveDuration a > b.startTime
      · simp [h, IntegrityError.isNegEffDur]
      · simp [h]

theorem negativeStartTimeErrors_filter_negEff (cells : List SceneEditorCell) :
    (negativeStartTimeErrors cells).filter IntegrityError.isNegEffDur = [] := by
  unfold negativeStartTimeErrors
  rw [List.filter_filterMap, List.filterMap_eq_nil_iff]
  intro c _
  by_cases h : c.startTime < 0
  · simp [h, IntegrityError.isNegEffDur]
  · simp [h]

/-- C10: the negative-effective-duration diagnostic branch of timeline
validation is unreachable.  `getEffectiveDuration` is at least 0.1 for
every clip, so neither the geometry-layer nor the VTM-layer
`validateTimelineIntegrity` ever emits a negative-effective-duration error,
for any input clip list. -/
theorem c10_negEffDur_unreachable :
    ∀ (cells : List SceneEditorCell) (nodes : List MediaNode),
      ((Geometry.validateTimelineIntegrity cells nodes).errors.filter
          IntegrityError.isNegEffDur) = []
      ∧ ((VTM.validateTimelineIntegrity cells).errors.filter
          IntegrityError.isNegEffDur) = []
      ∧ ∀ c : SceneEditorCell, 1/10 ≤ getEffectiveDuration c := by
  intro cells nodes
  refine ⟨?_, ?_, le_getEffectiveDuration⟩
  · unfold Geometry.validateTimelineIntegrity
    simp only [List.filter_append, overlapErrors_filter_negEff,
      negativeEffDurErrors_eq_nil, List.filter_nil, List.append_nil]
  · unfold VTM.validateTimelineIntegrity
    simp only [List.filter_append, overlapErrors_filter_negEff,
      negativeEffDurErrors_eq_nil, negativeStartTimeErrors_filter_negEff,
      List.filter_nil, List.append_nil]

/-- Three consistent 3-second clips, used as a concrete timeline. -/
def c1cells : List SceneEditorCell :=
  [ { id := "a", mediaNodeId := "m", position := 0, startTime := 0,
      duration := 3, trimStart := 0, trimEnd := 0 },
    { id := "b", mediaNodeId := "m", position := 1, startTime := 3,
      duration := 3, trimStart := 0, trimEnd := 0 },
    { id := "c", mediaNodeId := "m", position := 2, startTime := 6,
      duration := 3, trimStart := 0, trimEnd := 0 } ]

/-- C1 (counterexample): removing the middle clip with the
`RemoveSceneEditorCellOperation` variant of
`src/operations/SceneEditorOperations.ts` (which renumbers positions but
does not recompute start times) leaves start times [0, 6], a 3-second gap,
so the claim that every edit operation's output satisfies the
no-gap/no-overlap invariant is false. -/
theorem c1_counterexample : ¬ noGapNoOverlap (OpsSrc.removeCell ("b") c1cells) := by
  intro h
  have hEq : OpsSrc.removeCell ("b") c1cells =
      [ { id := "a", mediaNodeId := "m", position := 0, startTime := 0,
          duration := 3, trimStart := 0, trimEnd := 0 },
        { id := "c", mediaNodeId := "m", position := 1, startTime := 6,
          duration := 3, trimStart := 0, trimEnd := 0 } ] := by decide
  rw [hEq] at h
  have h0 := h.1 0 (by norm_num)
  norm_num [cellStart, getEffectiveDuration] at h0

/-- C1 (amended): the edit operations in the
`SceneEditorOperations.ts` variant that recomputes start times after every
structural mutation (Remove, Trim, Move-by-position when the moved cell is
found, Add) always produce a clip list satisfying the no-gap/no-overlap
invariant: adjacent start times differ from `startTime + effectiveDuration`
by at most 1e-6 (in fact exactly 0) and the first clip starts at 0.  The
duplicate operation classes in `src/operations/SceneEditorOperations.ts`
renumber positions only and do not recompute start times, so their output
can violate the invariant. -/
theorem c1_editOps_noGapNoOverlap (cells : List SceneEditorCell)
    (cellId newId mediaId : String) (ts te : ℚ) (newPos : Nat)
    (posOpt : Option Nat) (out : List SceneEditorCell) :
    noGapNoOverlap (Ops.removeCell cellId cells)
    ∧ noGapNoOverlap (Ops.trimCell cellId ts te cells)
    ∧ (Ops.moveCell cellId newPos cells = some out → noGapNoOverlap out)
    ∧ noGapNoOverlap (Ops.addCell newId mediaId posOpt cells) := by
  refine ⟨?_, ?_, ?_, ?_⟩
  · exact chainedFrom_noGapNoOverlap _ (chainedFrom_recompute _ 0)
  · exact chainedFrom_noGapNoOverlap _ (chainedFrom_recompute _ 0)
  · intro h
    unfold Ops.moveCell at h
    split at h
    · exact Option.noConfusion h
    · split at h
      · exact Option.noConfusion h
      · rw [← Option.some_inj.mp h]
        exact chainedFrom_noGapNoOverlap _ (chainedFrom_recompute _ 0)
  · exact chainedFrom_noGapNoOverlap _ (chainedFrom_recompute _ 0)

/-- Result of moving clip `a` of `c1cells` to position 2 with the
recomputing move operation. -/
def c1movedCells : List SceneEditorCell :=
  [ { id := "b", mediaNodeId := "m", position := 0, startTime := 0,
      duration := 3, trimStart := 0, trimEnd := 0 },
    { id := "c", mediaNodeId := "m", position := 1, startTime := 3,
      duration := 3, trimStart := 0, trimEnd := 0 },
    { id := "a", mediaNodeId := "m", position := 2, startTime := 6,
      duration := 3, trimStart := 0, trimEnd := 0 } ]

theorem c1_witness :
    noGapNoOverlap (Ops.removeCell ("b") c1cells)
    ∧ Ops.moveCell ("a") 2 c1cells = some c1movedCells
    ∧ noGapNoOverlap c1movedCells := by
  have hmove : Ops.moveCell ("a") 2 c1cells = some c1movedCells := by
    have h1 : List.findIdx? (fun c => c.id == "a") c1cells = some 0 := by decide
    have h2 : c1cells.get? 0 = some
        { id := "a", mediaNodeId := "m", position := 0, startTime := 0,
          duration := 3, trimStart := 0, trimEnd := 0 } := by decide
    unfold Ops.moveCell
    simp only [h1, h2]
    norm_num [Ops.insertAt, Ops.renumberPositionsFrom, Ops.recomputeStartTimesFrom,
      getEffectiveDuration, c1cells, c1movedCells]
  exact ⟨(c1_editOps_noGapNoOverlap c1cells ("b") ("x") ("m") 0 0 2 none c1movedCells).1,
    hmove,
    (c1_editOps_noGapNoOverlap c1cells ("a") ("x") ("m") 0 0 2 none c1movedCells).2.2.1 hmove⟩

/-- Which trim handle is being dragged, from `TrimHandles`
(`TimelineControls.tsx`). -/
inductive TrimHandle where
  | left
  | right
deriving DecidableEq, Repr

/-- The first stage of `TrimHandles.handleMouseDown`'s `handleMouseMove`:
convert the pixel drag delta to a time delta via
`zoomSystem.getTimeFromPixel(Math.abs(dragPixelDelta))` and adjust the trim
value of the dragged handle, floored at 0; the other trim value is kept. -/
def rawProposeTrim (cell : SceneEditorCell) (handle : TrimHandle)
    (dragPixelDelta pixelsPerSecond : ℚ) : ℚ × ℚ :=
  let timeDelta := |dragPixelDelta| / pixelsPerSecond
  match handle with
  | .left =>
    let adjustment := if dragPixelDelta > 0 then timeDelta else -timeDelta
    (max 0 (cell.trimStart + adjustment), cell.trimEnd)
  | .right =>
    let adjustment := if dragPixelDelta > 0 then -timeDelta else timeDelta
    (cell.trimStart, max 0 (cell.trimEnd + adjustment))

/-- The full trim proposal of `handleMouseMove`: when the raw pair would
exceed `maxTotalTrim = duration - 0.1`, the actively dragged value is
capped to `max(0, maxTotalTrim - otherCurrentTrim)`. -/
def proposeTrim (cell : SceneEditorCell) (handle : TrimHandle)
    (dragPixelDelta pixelsPerSecond : ℚ) : ℚ × ℚ :=
  let raw := rawProposeTrim cell handle dragPixelDelta pixelsPerSecond
  let maxTotalTrim := cell.duration - 1/10
  if raw.1 + raw.2 > maxTotalTrim then
    match handle with
    | .left => (max 0 (maxTotalTrim - cell.trimEnd), raw.2)
    | .right => (raw.1, max 0 (maxTotalTrim - cell.trimStart))
  else raw

/-- One untrimmed 5-second clip, used to exercise the trim operation. -/
def c7cells : List SceneEditorCell :=
  [ { id := "t", mediaNodeId := "m", position := 0, startTime := 0,
      duration := 5, trimStart := 0, trimEnd := 0 } ]

/-- C7 (counterexample): `TrimSceneEditorCellOperation` stores the trim
values it is constructed with verbatim; executing it with
`trimStart = -5` stores a negative trim, so the claim that every stored
trim pair satisfies `trimStart ≥ 0` (clamping applied by the operation
itself) is false. -/
theorem c7_counterexample :
    ((Ops.trimCell ("t") (-5) 0 c7cells).getD 0 default).trimStart = -5
    ∧ ¬ (0 ≤ ((Ops.trimCell ("t") (-5) 0 c7cells).getD 0 default).trimStart) := by
  refine ⟨by decide, ?_⟩
  intro h
  have : ((Ops.trimCell ("t") (-5) 0 c7cells).getD 0 default).trimStart = -5 := by decide
  rw [this] at h
  norm_num at h

theorem recompute_map_trim_mem (cellId : String) (ts' te' : ℚ) :
    ∀ (l : List SceneEditorCell) (t : ℚ),
      ∀ c' ∈ Ops.recomputeStartTimesFrom t
          (l.map fun c =>
            if c.id == cellId then { c with trimStart := ts', trimEnd := te' } else c),
        c'.id = cellId → c'.trimStart = ts' ∧ c'.trimEnd = te' := by
  intro l
  induction l with
  | nil => intro t c' hc' _; simp [Ops.recomputeStartTimesFrom] at hc'
  | cons c rest ih =>
    intro t c' hc' hid
    simp only [List.map_cons, Ops.recomputeStartTimesFrom, List.mem_cons] at hc'
    rcases hc' with hc' | hc'
    · by_cases h : c.id = cellId
      · subst hc'; simp [h]
      · exfalso
        apply h
        rw [← hid, hc']
        simp [beq_eq_false_iff_ne.mpr h]
    · exact ih _ c' hc' hid

/-- C7 (amended): every pair proposed by a trim-drag update from a clip
whose current trim values already satisfy the constraints
(`trimStart, trimEnd ≥ 0`, `trimStart + trimEnd ≤ duration - 0.1`) again
satisfies them, and whenever the raw proposal would exceed the limit the
actively dragged value is capped so the sum hits the limit exactly.  The
Trim edit operation itself applies no clamping: it stores the values it is
given verbatim on the addressed clip. -/
theorem c7_trim_constraints (cell : SceneEditorCell) (handle : TrimHandle)
    (dragPixelDelta pixelsPerSecond : ℚ)
    (hts : 0 ≤ cell.trimStart) (hte : 0 ≤ cell.trimEnd)
    (hsum : cell.trimStart + cell.trimEnd ≤ cell.duration - 1/10)
    (cells : List SceneEditorCell) (cellId : String) (ts' te' : ℚ) :
    (0 ≤ (proposeTrim cell handle dragPixelDelta pixelsPerSecond).1
      ∧ 0 ≤ (proposeTrim cell handle dragPixelDelta pixelsPerSecond).2
      ∧ (proposeTrim cell handle dragPixelDelta pixelsPerSecond).1
          + (proposeTrim cell handle dragPixelDelta pixelsPerSecond).2
          ≤ cell.duration - 1/10)
    ∧ ((rawProposeTrim cell handle dragPixelDelta pixelsPerSecond).1
          + (rawProposeTrim cell handle dragPixelDelta pixelsPerSecond).2
          > cell.duration - 1/10 →
        (proposeTrim cell handle dragPixelDelta pixelsPerSecond).1
          + (proposeTrim cell handle dragPixelDelta pixelsPerSecond).2
          = cell.duration - 1/10)
    ∧ (∀ c' ∈ Ops.trimCell cellId ts' te' cells,
        c'.id = cellId → c'.trimStart = ts' ∧ c'.trimEnd = te') := by
  have hteLe : cell.trimEnd ≤ cell.duration - 1/10 := by linarith
  have htsLe : cell.trimStart ≤ cell.duration - 1/10 := by linarith
  have hmain :
      (0 ≤ (proposeTrim cell handle dragPixelDelta pixelsPerSecond).1
        ∧ 0 ≤ (proposeTrim cell handle dragPixelDelta pixelsPerSecond).2
        ∧ (proposeTrim cell handle dragPixelDelta pixelsPerSecond).1
            + (proposeTrim cell handle dragPixelDelta pixelsPerSecond).2
            ≤ cell.duration - 1/10)
      ∧ ((rawProposeTrim cell handle dragPixelDelta pixelsPerSecond).1
            + (rawProposeTrim cell handle dragPixelDelta pixelsPerSecond).2
            > cell.duration - 1/10 →
          (proposeTrim cell handle dragPixelDelta pixelsPerSecond).1
            + (proposeTrim cell handle dragPixelDelta pixelsPerSecond).2
            = cell.duration - 1/10) := by
    unfold proposeTrim
    cases handle with
    | left =>
      by_cases hcap :
          (rawProposeTrim cell .left dragPixelDelta pixelsPerSecond).1
            + (rawProposeTrim cell .left dragPixelDelta pixelsPerSecond).2
            > cell.duration - 1/10
      · rw [if_pos hcap]
        have hc : max 0 (cell.duration - 1/10 - cell.trimEnd)
            = cell.duration - 1/10 - cell.trimEnd :=
          max_eq_right (by linarith)
        have hraw2 : (rawProposeTrim cell .left dragPixelDelta pixelsPerSecond).2
            = cell.trimEnd := rfl
        simp only [hraw2, hc]
        refine ⟨⟨by linarith, hte, by linarith⟩, fun _ => by ring⟩
      · rw [if_neg hcap]
        push_neg at hcap
        have hraw1 : (rawProposeTrim cell .left dragPixelDelta pixelsPerSecond).1
            = max 0 (cell.trimStart
                + (if dragPixelDelta > 0 then |dragPixelDelta| / pixelsPerSecond
                   else -(|dragPixelDelta| / pixelsPerSecond))) := rfl
        have hraw2 : (rawProposeTrim cell .left dragPixelDelta pixelsPerSecond).2
            = cell.trimEnd := rfl
        refine ⟨⟨?_, ?_, ?_⟩, fun hcon => absurd hcon (not_lt.mpr (by linarith))⟩
        · rw [hraw1]; exact le_max_left _ _
        · rw [hraw2]; exact hte
        · linarith
    | right =>
      by_cases hcap :
          (rawProposeTrim cell .right dragPixelDelta pixelsPerSecond).1
            + (rawProposeTrim cell .right dragPixelDelta pixelsPerSecond).2
            > cell.duration - 1/10
      · rw [if_pos hcap]
        have hc : max 0 (cell.duration - 1/10 - cell.trimStart)
            = cell.duration - 1/10 - cell.trimStart :=
          max_eq_right (by linarith)
        have hraw1 : (rawProposeTrim cell .right dragPixelDelta pixelsPerSecond).1
            = cell.trimStart := rfl
        simp only [hraw1, hc]
        refine ⟨⟨hts, by linarith, by linarith⟩, fun _ => by ring⟩
      · rw [if_neg hcap]
        push_neg at hcap
        have hraw1 : (rawProposeTrim cell .right dragPixelDelta pixelsPerSecond).1
            = cell.trimStart := rfl
        have hraw2 : (rawProposeTrim cell .right dragPixelDelta pixelsPerSecond).2
            = max 0 (cell.trimEnd
                + (if dragPixelDelta > 0 then -(|dragPixelDelta| / pixelsPerSecond)
                   else |dragPixelDelta| / pixelsPerSecond)) := rfl
        refine ⟨⟨?_, ?_, ?_⟩, fun hcon => absurd hcon (not_lt.mpr (by linarith))⟩
        · rw [hraw1]; exact hts
        · rw [hraw2]; exact le_max_left _ _
        · linarith
  exact ⟨hmain.1, hmain.2, recompute_map_trim_mem cellId ts' te' cells 0⟩

/-- Clip with one second trimmed from each side, for the trim witness. -/
def c7wcell : SceneEditorCell :=
  { id := "w", mediaNodeId := "m", position := 0, startTime := 0,
    duration := 5, trimStart := 1, trimEnd := 1 }

theorem c7_witness :
    0 ≤ (proposeTrim c7wcell .left 1000 60).1
    ∧ 0 ≤ (proposeTrim c7wcell .left 1000 60).2
    ∧ (proposeTrim c7wcell .left 1000 60).1 + (proposeTrim c7wcell .left 1000 60).2
        = c7wcell.duration - 1/10 := by
  have h := c7_trim_constraints c7wcell .left 1000 60
    (by norm_num [c7wcell]) (by norm_num [c7wcell]) (by norm_num [c7wcell])
    c7cells ("t") 0 0
  have hraw : (rawProposeTrim c7wcell .left 1000 60).1
      + (rawProposeTrim c7wcell .left 1000 60).2 > c7wcell.duration - 1/10 := by
    norm_num [rawProposeTrim, c7wcell, max_def, abs]
  exact ⟨h.1.1, h.1.2.1, h.2.1 hraw⟩

/-- Spaced layout entry from `RearrangeDragHandler`
(`SpacedLayoutPosition`): pixel interval of one clip in the spaced
rearrange-mode layout. -/
structure SpacedLayoutPosition where
  originalIndex : Nat
  spacedPixelStart : ℚ
  spacedPixelEnd : ℚ
  gapPixels : ℚ
deriving DecidableEq, Repr

instance : Inhabited SpacedLayoutPosition :=
  ⟨{ originalIndex := 0, spacedPixelStart := 0, spacedPixelEnd := 0, gapPixels := 0 }⟩

/-- Pixel start of the `i`-th entry of a spaced layout. -/
def slpStart (sp : List SpacedLayoutPosition) (i : Nat) : ℚ :=
  (sp.getD i default).spacedPixelStart

/-- Pixel end of the `i`-th entry of a spaced layout. -/
def slpEnd (sp : List SpacedLayoutPosition) (i : Nat) : ℚ :=
  (sp.getD i default).spacedPixelEnd

/-- The `for` loop of `calculateInsertionPosition`
(`RearrangeDragHandler`): `i` runs while `i < spacedPositions.length - 1`;
for each `i`, if the pointer is in the gap between clip `i` and clip `i+1`
return insertion index `i+1` at the gap centre; if the pointer is inside
clip `i`, split it at its midpoint (left half inserts before clip `i`,
right half after); otherwise continue.  Note that the loop never examines
"inside the last clip". -/
def cipLoop (sp : List SpacedLayoutPosition) (mouseX : ℚ) (i : Nat) :
    Option (Nat × ℚ) :=
  if _h : i + 1 < sp.length then
    if slpEnd sp i ≤ mouseX ∧ mouseX ≤ slpStart sp (i + 1) then
      some (i + 1, slpEnd sp i + (slpStart sp (i + 1) - slpEnd sp i) / 2)
    else if slpStart sp i ≤ mouseX ∧ mouseX ≤ slpEnd sp i then
      if mouseX ≤ (slpStart sp i + slpEnd sp i) / 2 then
        if i = 0 then some (0, 10)
        else some (i, slpEnd sp (i - 1) + (slpStart sp i - slpEnd sp (i - 1)) / 2)
      else some (i + 1, slpEnd sp i + (slpStart sp (i + 1) - slpEnd sp i) / 2)
    else cipLoop sp mouseX (i + 1)
  else none
termination_by sp.length - i

/-- Embeds `calculateInsertionPosition` from `RearrangeDragHandler`: empty layout
and pointer-before-first return index 0; pointer after the last clip's end
returns index `length`; otherwise the loop result, with a fallback of
"after the last clip" when the loop finds nothing
(`CLIP_GAP_PIXELS = 20`). -/
def calculateInsertionPosition (mouseX : ℚ) (sp : List SpacedLayoutPosition) :
    Nat × ℚ :=
  match sp with
  | [] => (0, 10)
  | first :: _ =>
    if mouseX < first.spacedPixelStart then (0, 10)
    else if mouseX > slpEnd sp (sp.length - 1) then
      (sp.length, slpEnd sp (sp.length - 1) + 20 / 2)
    else
      match cipLoop sp mouseX 0 with
      | some r => r
      | none => (sp.length, slpEnd sp (sp.length - 1) + 20 / 2)

theorem calculateInsertionPosition_eq (mouseX : ℚ)
    (sp : List SpacedLayoutPosition) (hne : sp ≠ []) :
    calculateInsertionPosition mouseX sp =
      if mouseX < slpStart sp 0 then (0, 10)
      else if mouseX > slpEnd sp (sp.length - 1) then
        (sp.length, slpEnd sp (sp.length - 1) + 20 / 2)
      else
        match cipLoop sp mouseX 0 with
        | some r => r
        | none => (sp.length, slpEnd sp (sp.length - 1) + 20 / 2) := by
  cases sp with
  | nil => exact absurd rfl hne
  | cons f rest => rfl

theorem slpStart_lt_slpStart (sp : List SpacedLayoutPosition)
    (h1 : ∀ j < sp.length, slpStart sp j < slpEnd sp j)
    (h2 : ∀ j, j + 1 < sp.length → slpEnd sp j < slpStart sp (j + 1)) :
    ∀ j k, j < k → k < sp.length → slpStart sp j < slpStart sp k := by
  intro j k
  induction k with
  | zero => intro h _; omega
  | succ n ih =>
    intro hjk hk
    have hstep : slpStart sp n < slpStart sp (n + 1) :=
      lt_trans (h1 n (by omega)) (h2 n hk)
    rcases Nat.lt_succ_iff_lt_or_eq.mp hjk with h | h
    · exact lt_trans (ih h (by omega)) hstep
    · subst h; exact hstep

theorem slpStart_le_slpStart (sp : List SpacedLayoutPosition)
    (h1 : ∀ j < sp.length, slpStart sp j < slpEnd sp j)
    (h2 : ∀ j, j + 1 < sp.length → slpEnd sp j < slpStart sp (j + 1)) :
    ∀ j k, j ≤ k → k < sp.length → slpStart sp j ≤ slpStart sp k := by
  intro j k hjk hk
  rcases Nat.eq_or_lt_of_le hjk with h | h
  · rw [h]
  · exact le_of_lt (slpStart_lt_slpStart sp h1 h2 j k h hk)

theorem slpEnd_lt_slpStart_of_lt (sp : List SpacedLayoutPosition)
    (h1 : ∀ j < sp.length, slpStart sp j < slpEnd sp j)
    (h2 : ∀ j, j + 1 < sp.length → slpEnd sp j < slpStart sp (j + 1)) :
    ∀ j k, j < k → k < sp.length → slpEnd sp j < slpStart sp k := by
  intro j k hjk hk
  rcases Nat.eq_or_lt_of_le (Nat.succ_le_of_lt hjk) with h | h
  · rw [← h]; exact h2 j (by omega)
  · exact lt_trans (h2 j (by omega)) (slpStart_lt_slpStart sp h1 h2 (j + 1) k h hk)

theorem cipLoop_index_le (sp : List SpacedLayoutPosition) (mouseX : ℚ)
    (i : Nat) : ∀ r, cipLoop sp mouseX i = some r → r.1 ≤ sp.length := by
  intro r h
  rw [cipLoop] at h
  split at h
  · split at h
    · obtain rfl := Option.some_inj.mp h
      show i + 1 ≤ sp.length
      omega
    · split at h
      · split at h
        · split at h
          · obtain rfl := Option.some_inj.mp h
            show 0 ≤ sp.length
            omega
          · obtain rfl := Option.some_inj.mp h
            show i ≤ sp.length
            omega
        · obtain rfl := Option.some_inj.mp h
          show i + 1 ≤ sp.length
          omega
      · exact cipLoop_index_le sp mouseX (i + 1) r h
  · exact Option.noConfusion h
termination_by sp.length - i

theorem cipLoop_fst_inside (sp : List SpacedLayoutPosition) (mouseX : ℚ)
    (h1 : ∀ j < sp.length, slpStart sp j < slpEnd sp j)
    (h2 : ∀ j, j + 1 < sp.length → slpEnd sp j < slpStart sp (j + 1))
    (i : Nat) (hi : i + 1 < sp.length)
    (hx1 : slpStart sp i ≤ mouseX) (hx2 : mouseX ≤ slpEnd sp i)
    (j : Nat) (hj : j ≤ i) :
    (cipLoop sp mouseX j).map Prod.fst
      = some (if mouseX ≤ (slpStart sp i + slpEnd sp i) / 2 then i else i + 1) := by
  rcases Nat.eq_or_lt_of_le hj with heq | hjlt
  · subst heq
    rw [cipLoop, dif_pos hi]
    by_cases hg : slpEnd sp j ≤ mouseX ∧ mouseX ≤ slpStart sp (j + 1)
    · rw [if_pos hg]
      have hxe : mouseX = slpEnd sp j := le_antisymm hx2 hg.1
      have hmid : ¬ mouseX ≤ (slpStart sp j + slpEnd sp j) / 2 := by
        have := h1 j (by omega)
        rw [hxe]
        push_neg
        linarith
      rw [if_neg hmid]
      simp
    · rw [if_neg hg, if_pos ⟨hx1, hx2⟩]
      by_cases hm : mouseX ≤ (slpStart sp j + slpEnd sp j) / 2
      · rw [if_pos hm, if_pos hm]
        by_cases hz : j = 0
        · subst hz; simp
        · rw [if_neg hz]; simp
      · rw [if_neg hm, if_neg hm]
        simp
  · rw [cipLoop, dif_pos (by omega : j + 1 < sp.length)]
    by_cases hg : slpEnd sp j ≤ mouseX ∧ mouseX ≤ slpStart sp (j + 1)
    · have hle : slpStart sp (j + 1) ≤ slpStart sp i :=
        slpStart_le_slpStart sp h1 h2 (j + 1) i (by omega) (by omega)
      have hxi : mouseX = slpStart sp i := le_antisymm (le_trans hg.2 hle) hx1
      have hji : j + 1 = i := by
        by_contra hne
        have hlt2 : slpStart sp (j + 1) < slpStart sp i :=
          slpStart_lt_slpStart sp h1 h2 (j + 1) i (by omega) (by omega)
        have := hg.2
        linarith
      have hmid : mouseX ≤ (slpStart sp i + slpEnd sp i) / 2 := by
        have := h1 i (by omega)
        rw [hxi]
        linarith
      rw [if_pos hg, if_pos hmid]
      simp [hji]
    · rw [if_neg hg]
      have hin : ¬ (slpStart sp j ≤ mouseX ∧ mouseX ≤ slpEnd sp j) := by
        intro hc
        have := slpEnd_lt_slpStart_of_lt sp h1 h2 j i hjlt (by omega)
        linarith [hc.2]
      rw [if_neg hin]
      exact cipLoop_fst_inside sp mouseX h1 h2 i hi hx1 hx2 (j + 1) hjlt
termination_by i - j

theorem cipLoop_none_gt_last (sp : List SpacedLayoutPosition) (mouseX : ℚ)
    (h1 : ∀ j < sp.length, slpStart sp j < slpEnd sp j)
    (h2 : ∀ j, j + 1 < sp.length → slpEnd sp j < slpStart sp (j + 1))
    (hx : slpStart sp (sp.length - 1) < mouseX) (j : Nat) :
    cipLoop sp mouseX j = none := by
  rw [cipLoop]
  split
  case isTrue hlt =>
    have hsle : slpStart sp (j + 1) ≤ slpStart sp (sp.length - 1) :=
      slpStart_le_slpStart sp h1 h2 (j + 1) (sp.length - 1) (by omega) (by omega)
    have hend : slpEnd sp j < slpStart sp (sp.length - 1) :=
      slpEnd_lt_slpStart_of_lt sp h1 h2 j (sp.length - 1) (by omega) (by omega)
    have hg : ¬ (slpEnd sp j ≤ mouseX ∧ mouseX ≤ slpStart sp (j + 1)) := by
      intro hc
      linarith [hc.2]
    have hin : ¬ (slpStart sp j ≤ mouseX ∧ mouseX ≤ slpEnd sp j) := by
      intro hc
      linarith [hc.2]
    rw [if_neg hg, if_neg hin]
    exact cipLoop_none_gt_last sp mouseX h1 h2 hx (j + 1)
  case isFalse => rfl
termination_by sp.length - j

/-- Single-clip spaced layout occupying pixels [10, 110]. -/
def c8layout : List SpacedLayoutPosition :=
  [{ originalIndex := 0, spacedPixelStart := 10, spacedPixelEnd := 110,
     gapPixels := 20 }]

/-- C8 (counterexample): with a single clip spanning pixels [10, 110], a
pointer at x = 20 is inside the clip's left half (midpoint 60), yet
`calculateInsertionPosition` returns insertion index 1 (after the clip),
not 0, because the loop never examines the inside of the last clip and the
fallback fires; so the claim that the midpoint rule also applies inside the
last (or only) clip is false. -/
theorem c8_counterexample :
    slpStart c8layout 0 ≤ 20
    ∧ (20 : ℚ) ≤ (slpStart c8layout 0 + slpEnd c8layout 0) / 2
    ∧ (calculateInsertionPosition 20 c8layout).1 = 1
    ∧ (calculateInsertionPosition 20 c8layout).1 ≠ 0 := by
  have hloop : cipLoop c8layout 20 0 = none := by
    rw [cipLoop, dif_neg (show ¬ (0 + 1 < c8layout.length) by norm_num [c8layout])]
  have hev : calculateInsertionPosition 20 c8layout = (1, 120) := by
    rw [calculateInsertionPosition_eq 20 c8layout (by decide)]
    rw [if_neg (by norm_num [c8layout, slpStart])]
    rw [if_neg (by norm_num [c8layout, slpEnd])]
    rw [hloop]
    simp [c8layout, slpEnd]
    norm_num
  refine ⟨by norm_num [slpStart, c8layout],
    by norm_num [slpStart, slpEnd, c8layout], by rw [hev], by rw [hev]; norm_num⟩

/-- C8 (amended): for every pointer x-coordinate the rearrange handler's
insertion computation returns an index in `[0, number of clips]`.  On a
well-formed spaced layout (positive-width clips separated by positive
gaps), a pointer inside any clip other than the last follows the midpoint
rule: left half (inclusive) inserts before that clip, right half after it;
a pointer strictly inside the last clip (past its left edge) always yields
insertion after the last clip, index `length` — the midpoint rule does not
apply to the last clip. -/
theorem c8_insertionPosition (mouseX : ℚ) (sp : List SpacedLayoutPosition)
    (h1 : ∀ j < sp.length, slpStart sp j < slpEnd sp j)
    (h2 : ∀ j, j + 1 < sp.length → slpEnd sp j < slpStart sp (j + 1)) :
    (∀ (y : ℚ) (tp : List SpacedLayoutPosition),
        (calculateInsertionPosition y tp).1 ≤ tp.length)
    ∧ (∀ i, i + 1 < sp.length → slpStart sp i ≤ mouseX → mouseX ≤ slpEnd sp i →
        (calculateInsertionPosition mouseX sp).1
          = if mouseX ≤ (slpStart sp i + slpEnd sp i) / 2 then i else i + 1)
    ∧ (sp ≠ [] → slpStart sp (sp.length - 1) < mouseX →
        mouseX ≤ slpEnd sp (sp.length - 1) →
        (calculateInsertionPosition mouseX sp).1 = sp.length) := by
  refine ⟨?_, ?_, ?_⟩
  · intro y tp
    cases tp with
    | nil => simp [calculateInsertionPosition]
    | cons f rest =>
      rw [calculateInsertionPosition_eq y (f :: rest) (by simp)]
      split
      · simp
      · split
        · simp
        · cases hcl : cipLoop (f :: rest) y 0 with
          | none => simp
          | some r =>
            simp only [hcl]
            exact cipLoop_index_le (f :: rest) y 0 r hcl
  · intro i hi hx1 hx2
    have hne : sp ≠ [] := by
      intro hc
      rw [hc] at hi
      simp at hi
    rw [calculateInsertionPosition_eq mouseX sp hne]
    have hnotlt : ¬ mouseX < slpStart sp 0 := by
      push_neg
      exact le_trans (slpStart_le_slpStart sp h1 h2 0 i (Nat.zero_le i) (by omega)) hx1
    rw [if_neg hnotlt]
    have hnotgt : ¬ mouseX > slpEnd sp (sp.length - 1) := by
      push_neg
      have hii : i < sp.length - 1 := by omega
      have hes : slpEnd sp i < slpStart sp (sp.length - 1) :=
        slpEnd_lt_slpStart_of_lt sp h1 h2 i (sp.length - 1) hii (by omega)
      have hse := h1 (sp.length - 1) (by omega)
      linarith
    rw [if_neg hnotgt]
    have hloop := cipLoop_fst_inside sp mouseX h1 h2 i hi hx1 hx2 0 (Nat.zero_le i)
    cases hcl : cipLoop sp mouseX 0 with
    | none => rw [hcl] at hloop; simp at hloop
    | some r =>
      rw [hcl] at hloop
      simp only [Option.map_some'] at hloop
      simp only [hcl]
      exact Option.some_inj.mp hloop
  · intro hne hx1 hx2
    rw [calculateInsertionPosition_eq mouseX sp hne]
    have hlen : 0 < sp.length := List.length_pos.mpr hne
    have hnotlt : ¬ mouseX < slpStart sp 0 := by
      push_neg
      exact le_of_lt (lt_of_le_of_lt
        (slpStart_le_slpStart sp h1 h2 0 (sp.length - 1) (Nat.zero_le _) (by omega)) hx1)
    rw [if_neg hnotlt]
    rw [if_neg (by push_neg; exact hx2)]
    rw [cipLoop_none_gt_last sp mouseX h1 h2 hx1 0]

/-- Two-clip spaced layout: [10, 110] and [130, 230]. -/
def c8wlayout : List SpacedLayoutPosition :=
  [{ originalIndex := 0, spacedPixelStart := 10, spacedPixelEnd := 110,
     gapPixels := 20 },
   { originalIndex := 1, spacedPixelStart := 130, spacedPixelEnd := 230,
     gapPixels := 20 }]

theorem c8_witness :
    (calculateInsertionPosition 30 c8wlayout).1 = 0
    ∧ (calculateInsertionPosition 200 c8wlayout).1 = 2 := by
  have hl1 : ∀ j < c8wlayout.length, slpStart c8wlayout j < slpEnd c8wlayout j := by
    intro j hj
    have hj2 : j < 2 := by simpa [c8wlayout] using hj
    interval_cases j <;> norm_num [c8wlayout, slpStart, slpEnd]
  have hl2 : ∀ j, j + 1 < c8wlayout.length →
      slpEnd c8wlayout j < slpStart c8wlayout (j + 1) := by
    intro j hj
    have hj0 : j = 0 := by
      have hj2 : j + 1 < 2 := by simpa [c8wlayout] using hj
      omega
    subst hj0
    norm_num [c8wlayout, slpStart, slpEnd]
  constructor
  · have hb := (c8_insertionPosition 30 c8wlayout hl1 hl2).2.1 0
      (by norm_num [c8wlayout]) (by norm_num [c8wlayout, slpStart])
      (by norm_num [c8wlayout, slpStart, slpEnd])
    rw [if_pos (by norm_num [c8wlayout, slpStart, slpEnd])] at hb
    exact hb
  · exact (c8_insertionPosition 200 c8wlayout hl1 hl2).2.2
      (by decide) (by norm_num [c8wlayout, slpStart, slpEnd])
      (by norm_num [c8wlayout, slpStart, slpEnd])

theorem calculateTotalDuration_nonneg (cells : List SceneEditorCell) :
    0 ≤ VTM.calculateTotalDuration cells := by
  rw [vtm_calculateTotalDuration_eq_spec]
  exact foldr_max_nonneg _

theorem mem_le_foldr_max (l : List ℚ) : ∀ x ∈ l, x ≤ l.foldr max 0 := by
  induction l with
  | nil => simp
  | cons a rest ih =>
    intro x hx
    rcases List.mem_cons.mp hx with rfl | hx
    · exact le_max_left _ _
    · exact le_trans (ih x hx) (le_max_right _ _)

theorem end_le_totalDuration (cells : List SceneEditorCell) (c : SceneEditorCell)
    (hc : c ∈ cells) :
    c.startTime + getEffectiveDuration c ≤ VTM.calculateTotalDuration cells := by
  rw [vtm_calculateTotalDuration_eq_spec]
  exact mem_le_foldr_max _ _ (List.mem_map_of_mem _ hc)

theorem getD_mem (l : List SceneEditorCell) (i : Nat) (h : i < l.length) :
    l.getD i default ∈ l := by
  rw [List.getD_eq_getElem l default h]
  exact List.getElem_mem h

theorem chainedFrom_le_cellStart (l : List SceneEditorCell) :
    ∀ t : ℚ, chainedFrom t l → ∀ i, i < l.length → t ≤ cellStart l i := by
  induction l with
  | nil => intro t _ i hi; simp at hi
  | cons c rest ih =>
    intro t h i hi
    cases i with
    | zero =>
      rw [show cellStart (c :: rest) 0 = c.startTime from rfl, h.1]
    | succ j =>
      have hj := ih _ h.2 j (by simpa using hi)
      have heff := le_getEffectiveDuration c
      calc t ≤ t + getEffectiveDuration c := by linarith
        _ ≤ cellStart rest j := hj
        _ = cellStart (c :: rest) (j + 1) := by simp [cellStart]

theorem findClip_chained (l : List SceneEditorCell) :
    ∀ t0 : ℚ, chainedFrom t0 l →
    ∀ i, i < l.length →
    ∀ t : ℚ, 0 ≤ t → t < getEffectiveDuration (l.getD i default) →
    ∀ i0 : Nat,
      VTM.findClip l (cellStart l i + t) i0
        = some { clipIndex := i0 + i,
                 clipTime := if |t| < 1/1000 then 0 else t,
                 clip := l.getD i default,
                 clipStartTime := cellStart l i,
                 clipEndTime := cellStart l i
                   + getEffectiveDuration (l.getD i default) } := by
  induction l with
  | nil => intro t0 _ i hi; simp at hi
  | cons c rest ih =>
    intro t0 hch i hi t ht0 ht1 i0
    cases i with
    | zero =>
      simp only [List.getD_cons_zero] at ht1
      simp only [cellStart, List.getD_cons_zero]
      simp only [VTM.findClip]
      have habs : c.startTime + t - c.startTime = t := by ring
      rw [habs]
      by_cases heps : |t| < 1/1000
      · rw [if_pos heps, if_pos heps]
        simp
      · rw [if_neg heps, if_neg heps,
          if_pos ⟨by linarith, by linarith⟩]
        simp
    | succ j =>
      simp only [List.getD_cons_succ] at ht1
      have hjlen : j < rest.length := by simpa using hi
      have hcs : cellStart (c :: rest) (j + 1) = cellStart rest j := by
        simp [cellStart]
      have hbase := chainedFrom_le_cellStart rest _ hch.2 j hjlen
      have heffc := le_getEffectiveDuration c
      rw [hcs]
      simp only [VTM.findClip]
      have hno1 : ¬ |cellStart rest j + t - c.startTime| < 1/1000 := by
        rw [hch.1, abs_of_nonneg (by linarith)]
        push_neg
        linarith
      have hno2 : ¬ (c.startTime ≤ cellStart rest j + t
          ∧ cellStart rest j + t < c.startTime + getEffectiveDuration c) := by
        rw [hch.1]
        intro hcon
        linarith [hcon.2]
      rw [if_neg hno1, if_neg hno2]
      rw [ih _ hch.2 j hjlen t ht0 ht1 (i0 + 1)]
      have hidx : i0 + 1 + j = i0 + (j + 1) := by omega
      simp [hidx, cellStart]

/-- C2: on a consistent timeline (cumulative start times from 0), for every
valid clip index `i` and clip time `t` in `[0, effectiveDuration)`, mapping
to global time and back recovers clip index `i` exactly and the clip time
within the mapping epsilon 0.001 (exactly, unless `t` itself lies within
epsilon of 0, in which case the at-start branch returns 0). -/
theorem c2_roundTrip (cells : List SceneEditorCell)
    (hcons : chainedFrom 0 cells) (i : Nat) (hi : i < cells.length)
    (t : ℚ) (ht0 : 0 ≤ t) (ht1 : t < getEffectiveDuration (cells.getD i default)) :
    ∃ cp : VTM.ClipPosition,
      VTM.globalTimeToClipPosition cells (VTM.calculateTotalDuration cells)
        (VTM.clipPositionToGlobalTime cells i t) = some cp
      ∧ cp.clipIndex = i ∧ |cp.clipTime - t| < 1/1000 := by
  have hmem := getD_mem cells i hi
  have hstart0 : (0 : ℚ) ≤ cellStart cells i :=
    chainedFrom_le_cellStart cells 0 hcons i hi
  have hendTD : cellStart cells i + getEffectiveDuration (cells.getD i default)
      ≤ VTM.calculateTotalDuration cells :=
    end_le_totalDuration cells _ hmem
  have hg : VTM.clipPositionToGlobalTime cells i t = cellStart cells i + t := by
    unfold VTM.clipPositionToGlobalTime
    rw [if_neg (by
      push_neg
      exact ⟨Int.natCast_nonneg i, by exact_mod_cast hi⟩)]
    rw [Int.toNat_natCast]
    rw [min_eq_left (le_of_lt ht1), max_eq_right ht0]
    rfl
  rw [hg]
  unfold VTM.globalTimeToClipPosition
  have hclamp : max 0 (min (cellStart cells i + t) (VTM.calculateTotalDuration cells))
      = cellStart cells i + t := by
    rw [min_eq_left (by linarith)]
    exact max_eq_right (by linarith)
  rw [hclamp]
  rw [findClip_chained cells 0 hcons i hi t ht0 ht1 0]
  refine ⟨_, rfl, by simp, ?_⟩
  by_cases heps : |t| < 1/1000
  · show |(if |t| < 1/1000 then 0 else t) - t| < 1/1000
    rw [if_pos heps, zero_sub, abs_neg]
    exact heps
  · show |(if |t| < 1/1000 then 0 else t) - t| < 1/1000
    rw [if_neg heps, sub_self, abs_zero]
    norm_num

theorem findClip_none_of_ge (l : List SceneEditorCell) :
    ∀ q : ℚ, (∀ c ∈ l, c.startTime + getEffectiveDuration c ≤ q) →
    ∀ i0, VTM.findClip l q i0 = none := by
  induction l with
  | nil => intro q _ i0; rfl
  | cons c rest ih =>
    intro q hb i0
    have hc := hb c (List.mem_cons_self c rest)
    have heff := le_getEffectiveDuration c
    simp only [VTM.findClip]
    have h1 : ¬ |q - c.startTime| < 1/1000 := by
      rw [abs_of_nonneg (by linarith)]
      push_neg
      linarith
    have h2 : ¬ (c.startTime ≤ q ∧ q < c.startTime + getEffectiveDuration c) := by
      intro hcon
      linarith [hcon.2]
    rw [if_neg h1, if_neg h2]
    exact ih q (fun d hd => hb d (List.mem_cons_of_mem c hd)) (i0 + 1)

/-- A global time hitting no clip: neither within epsilon of any clip's
start, nor inside any clip's `[startTime, startTime + effectiveDuration)`
interval. -/
def IsGap (cells : List SceneEditorCell) (t : ℚ) : Prop :=
  ∀ c ∈ cells, ¬ |t - c.startTime| < 1/1000
    ∧ ¬ (c.startTime ≤ t ∧ t < c.startTime + getEffectiveDuration c)

theorem findClip_eq_none_isGap (l : List SceneEditorCell) :
    ∀ (q : ℚ) (i0 : Nat), VTM.findClip l q i0 = none → IsGap l q := by
  induction l with
  | nil => intro q i0 _ c hc; simp at hc
  | cons c rest ih =>
    intro q i0 h d hd
    simp only [VTM.findClip] at h
    by_cases h1 : |q - c.startTime| < 1/1000
    · rw [if_pos h1] at h
      exact Option.noConfusion h
    · rw [if_neg h1] at h
      by_cases h2 : c.startTime ≤ q ∧ q < c.startTime + getEffectiveDuration c
      · rw [if_pos h2] at h
        exact Option.noConfusion h
      · rw [if_neg h2] at h
        rcases List.mem_cons.mp hd with rfl | hd'
        · exact ⟨h1, h2⟩
        · exact ih q (i0 + 1) h d hd'

theorem gtcp_eq_some_case (cells : List SceneEditorCell) (td g : ℚ)
    (cp : VTM.ClipPosition)
    (h : VTM.findClip cells (max 0 (min g td)) 0 = some cp) :
    VTM.globalTimeToClipPosition cells td g = some cp := by
  unfold VTM.globalTimeToClipPosition
  rw [h]

theorem gtcp_eq_none_case (cells : List SceneEditorCell) (td g : ℚ)
    (h : VTM.findClip cells (max 0 (min g td)) 0 = none) :
    VTM.globalTimeToClipPosition cells td g =
      if td ≤ max 0 (min g td) ∧ cells ≠ [] then
        some { clipIndex := cells.length - 1,
               clipTime := getEffectiveDuration (cells.getD (cells.length - 1) default),
               clip := cells.getD (cells.length - 1) default,
               clipStartTime := (cells.getD (cells.length - 1) default).startTime,
               clipEndTime := (cells.getD (cells.length - 1) default).startTime
                 + getEffectiveDuration (cells.getD (cells.length - 1) default) }
      else none := by
  unfold VTM.globalTimeToClipPosition
  rw [h]

/-- C3: with `totalDuration` computed from the cells (as `updateTimeline`
maintains), querying `globalTimeToClipPosition` at exactly `totalDuration`
on a non-empty timeline returns the last clip at
`clipTime = effectiveDuration(lastClip)` — never `none`; and the function
(a total Lean function, so it cannot throw) returns `none` only for an
empty timeline or when the clamped query time lies in a true gap strictly
before `totalDuration`. -/
theorem c3_endOfTimeline (cells : List SceneEditorCell) :
    (cells ≠ [] →
      VTM.globalTimeToClipPosition cells (VTM.calculateTotalDuration cells)
          (VTM.calculateTotalDuration cells)
        = some { clipIndex := cells.length - 1,
                 clipTime := getEffectiveDuration (cells.getD (cells.length - 1) default),
                 clip := cells.getD (cells.length - 1) default,
                 clipStartTime := (cells.getD (cells.length - 1) default).startTime,
                 clipEndTime := (cells.getD (cells.length - 1) default).startTime
                   + getEffectiveDuration (cells.getD (cells.length - 1) default) })
    ∧ (∀ globalTime : ℚ,
        VTM.globalTimeToClipPosition cells (VTM.calculateTotalDuration cells)
          globalTime = none →
        cells = []
        ∨ (IsGap cells (max 0 (min globalTime (VTM.calculateTotalDuration cells)))
            ∧ max 0 (min globalTime (VTM.calculateTotalDuration cells))
              < VTM.calculateTotalDuration cells)) := by
  have hTD0 : (0 : ℚ) ≤ VTM.calculateTotalDuration cells :=
    calculateTotalDuration_nonneg cells
  have hclamp : max 0 (min (VTM.calculateTotalDuration cells)
      (VTM.calculateTotalDuration cells)) = VTM.calculateTotalDuration cells := by
    rw [min_self]
    exact max_eq_right hTD0
  constructor
  · intro hne
    have hnone : VTM.findClip cells (max 0 (min (VTM.calculateTotalDuration cells)
        (VTM.calculateTotalDuration cells))) 0 = none := by
      rw [hclamp]
      exact findClip_none_of_ge cells _ (fun c hc => end_le_totalDuration cells c hc) 0
    rw [gtcp_eq_none_case cells _ _ hnone,
      if_pos ⟨le_of_eq hclamp.symm, hne⟩]
  · intro g hnone
    by_cases hne : cells = []
    · exact Or.inl hne
    · right
      cases hfc : VTM.findClip cells
          (max 0 (min g (VTM.calculateTotalDuration cells))) 0 with
      | some cp =>
        rw [gtcp_eq_some_case cells _ g cp hfc] at hnone
        exact Option.noConfusion hnone
      | none =>
        rw [gtcp_eq_none_case cells _ g hfc] at hnone
        refine ⟨findClip_eq_none_isGap cells _ 0 hfc, ?_⟩
        by_contra hc
        push_neg at hc
        rw [if_pos ⟨hc, hne⟩] at hnone
        exact Option.noConfusion hnone

theorem c2_witness :
    ∃ cp : VTM.ClipPosition,
      VTM.globalTimeToClipPosition c1cells (VTM.calculateTotalDuration c1cells)
        (VTM.clipPositionToGlobalTime c1cells 1 2) = some cp
      ∧ cp.clipIndex = 1 ∧ |cp.clipTime - 2| < 1/1000 :=
  c2_roundTrip c1cells
    (by norm_num [chainedFrom, c1cells, getEffectiveDuration]) 1
    (by norm_num [c1cells]) 2 (by norm_num)
    (by norm_num [c1cells, getEffectiveDuration])

/-- Two clips with a 7-second hole between them (an inconsistent timeline
used only to exercise the gap branch). -/
def c3gapcells : List SceneEditorCell :=
  [ { id := "g1", mediaNodeId := "m", position := 0, startTime := 0,
      duration := 3, trimStart := 0, trimEnd := 0 },
    { id := "g2", mediaNodeId := "m", position := 1, startTime := 10,
      duration := 3, trimStart := 0, trimEnd := 0 } ]

theorem c3_witness :
    (VTM.globalTimeToClipPosition c1cells (VTM.calculateTotalDuration c1cells)
        (VTM.calculateTotalDuration c1cells)
      = some { clipIndex := c1cells.length - 1,
               clipTime := getEffectiveDuration (c1cells.getD (c1cells.length - 1) default),
               clip := c1cells.getD (c1cells.length - 1) default,
               clipStartTime := (c1cells.getD (c1cells.length - 1) default).startTime,
               clipEndTime := (c1cells.getD (c1cells.length - 1) default).startTime
                 + getEffectiveDuration (c1cells.getD (c1cells.length - 1) default) })
    ∧ (c3gapcells = []
        ∨ (IsGap c3gapcells (max 0 (min 5 (VTM.calculateTotalDuration c3gapcells)))
            ∧ max 0 (min 5 (VTM.calculateTotalDuration c3gapcells))
              < VTM.calculateTotalDuration c3gapcells)) := by
  constructor
  · exact (c3_endOfTimeline c1cells).1 (by decide)
  · have hTD : VTM.calculateTotalDuration c3gapcells = 13 := by
      rw [VTM.calculateTotalDuration, if_neg (by decide : ¬ c3gapcells = [])]
      norm_num [c3gapcells, getEffectiveDuration]
    have hclamped : max 0 (min 5 (VTM.calculateTotalDuration c3gapcells)) = 5 := by
      rw [hTD]
      norm_num
    refine (c3_endOfTimeline c3gapcells).2 5 ?_
    have hfc : VTM.findClip c3gapcells
        (max 0 (min 5 (VTM.calculateTotalDuration c3gapcells))) 0 = none := by
      rw [hclamped]
      norm_num [VTM.findClip, c3gapcells, getEffectiveDuration, abs_lt]
    have hcond : ¬ (VTM.calculateTotalDuration c3gapcells
        ≤ max 0 (min 5 (VTM.calculateTotalDuration c3gapcells))
        ∧ c3gapcells ≠ []) := by
      intro hcon
      rw [hclamped, hTD] at hcon
      norm_num at hcon
    rw [gtcp_eq_none_case c3gapcells _ 5 hfc, if_neg hcond]

/-- Timeline state snapshot published to timeline-change subscribers
(interface `TimelineState` in `VirtualTimelineManager.ts`). -/
structure TimelineStateSnap where
  totalDuration : ℚ
  currentTime : ℚ
  currentClip : Option VTM.ClipPosition
  isPlaying : Bool

/-- Instruction published to video-player subscribers
(interface `VideoPlayerInstruction` in `VirtualTimelineManager.ts`; the
optional `mediaUrl` field is never set by the manager). -/
structure VideoPlayerInstruction where
  clip : Option SceneEditorCell
  seekTime : ℚ

/-- Mutable state of `VirtualTimelineManagerImpl` together with its three
subscriber lists.  A subscriber is modelled as a function returning
`Except String Unit` (a caught exception or a normal return);
`callbackLog` records, in invocation order, `none` for a normal return and
`some msg` for an exception caught by the per-callback `try`/`catch` of the
three notify methods.  The animation-frame handle `masterClockRef` is
abstracted to `masterClockScheduled` (`masterClockRef` being non-null), and
each reading of the wall clock `performance.now()` is passed in explicitly
as a `now` argument. -/
structure VTMState where
  cells : List SceneEditorCell
  currentTime : ℚ
  playing : Bool
  totalDuration : ℚ
  lastFrameTime : ℚ
  masterClockScheduled : Bool
  timelineChangeCallbacks : List (TimelineStateSnap → Except String Unit)
  currentTimeChangeCallbacks : List (ℚ → Except String Unit)
  videoPlayerCallbacks : List (VideoPlayerInstruction → Except String Unit)
  callbackLog : List (Option String)

namespace VTM

/-- Outcome of invoking one subscriber inside `try`/`catch`: `none` on a
normal return, the message on a caught exception. -/
def notifyOutcome {α : Type} (cb : α → Except String Unit) (x : α) : Option String :=
  match cb x with
  | .ok _ => none
  | .error e => some e

/-- Embeds `getCurrentClip`. -/
def getCurrentClip (s : VTMState) : Option ClipPosition :=
  globalTimeToClipPosition s.cells s.totalDuration s.currentTime

/-- Embeds `getTimelineState`. -/
def getTimelineState (s : VTMState) : TimelineStateSnap :=
  { totalDuration := s.totalDuration, currentTime := s.currentTime,
    currentClip := getCurrentClip s, isPlaying := s.playing }

/-- Instruction built by `notifyVideoPlayerInstruction`:
`clip: clipPosition?.clip || null` and
`seekTime: clipPosition?.clipTime || 0`. -/
def currentInstruction (s : VTMState) : VideoPlayerInstruction :=
  { clip := (getCurrentClip s).map (fun cp => cp.clip),
    seekTime := ((getCurrentClip s).map (fun cp => cp.clipTime)).getD 0 }

/-- Embeds `notifyTimelineChange`: every timeline-change subscriber is
invoked with the current snapshot, exceptions caught per callback. -/
def notifyTimelineChange (s : VTMState) : VTMState :=
  { s with callbackLog := s.callbackLog ++ s.timelineChangeCallbacks.map (fun cb => notifyOutcome cb (getTimelineState s)) }

/-- Embeds `notifyCurrentTimeChange`. -/
def notifyCurrentTimeChange (globalTime : ℚ) (s : VTMState) : VTMState :=
  { s with callbackLog := s.callbackLog ++ s.currentTimeChangeCallbacks.map (fun cb => notifyOutcome cb globalTime) }

/-- Embeds `notifyVideoPlayerInstruction`. -/
def notifyVideoPlayerInstruction (s : VTMState) : VTMState :=
  { s with callbackLog := s.callbackLog ++ s.videoPlayerCallbacks.map (fun cb => notifyOutcome cb (currentInstruction s)) }

/-- Embeds `updateCurrentTimeInternal(newTime, notifyAll)`: clamp, and only
when the stored time actually changes, store it, always notify the
current-time channel, then either all remaining channels (external update)
or only the video-player channel (master-clock update). -/
def updateCurrentTimeInternal (newTime : ℚ) (notifyAll : Bool) (s : VTMState) :
    VTMState :=
  if s.currentTime = max 0 (min newTime s.totalDuration) then s
  else
    if notifyAll then
      notifyVideoPlayerInstruction (notifyTimelineChange
        (notifyCurrentTimeChange (max 0 (min newTime s.totalDuration))
          { s with currentTime := max 0 (min newTime s.totalDuration) }))
    else
      notifyVideoPlayerInstruction
        (notifyCurrentTimeChange (max 0 (min newTime s.totalDuration))
          { s with currentTime := max 0 (min newTime s.totalDuration) })

/-- Embeds `startMasterClock`: any running clock is stopped, the frame
timestamp is reset to the current wall clock and the loop is rescheduled. -/
def startMasterClock (now : ℚ) (s : VTMState) : VTMState :=
  { s with lastFrameTime := now, masterClockScheduled := true }

/-- Embeds `stopMasterClock` (idempotent). -/
def stopMasterClock (s : VTMState) : VTMState :=
  { s with masterClockScheduled := false }

/-- Embeds `setCurrentTime`: clamp; when the value changes, run the full
(external) update and, if playing, restart the master clock with fresh
timing. -/
def setCurrentTime (globalTime now : ℚ) (s : VTMState) : VTMState :=
  if s.currentTime = max 0 (min globalTime s.totalDuration) then s
  else
    if (updateCurrentTimeInternal (max 0 (min globalTime s.totalDuration)) true s).playing
    then
      startMasterClock now
        (updateCurrentTimeInternal (max 0 (min globalTime s.totalDuration)) true s)
    else updateCurrentTimeInternal (max 0 (min globalTime s.totalDuration)) true s

/-- Embeds `setPlaying`: a no-op when the state is unchanged; otherwise the
flag is written first, then on play the current time is rewound to 0 when
at (or past) the end before the clock starts, on pause the clock stops; a
timeline-change notification closes the mutation. -/
def setPlaying (isPlaying : Bool) (now : ℚ) (s : VTMState) : VTMState :=
  if s.playing = isPlaying then s
  else
    notifyTimelineChange
      (if isPlaying then
        startMasterClock now
          (if s.totalDuration ≤ s.currentTime then
            setCurrentTime 0 now { s with playing := isPlaying }
          else { s with playing := isPlaying })
      else stopMasterClock { s with playing := isPlaying })

/-- Embeds `masterClockLoop` as a single-tick transition taking the wall
clock `now`: stop silently when not playing; skip anomalous deltas
(non-positive or at least 0.1 s) while keeping the loop scheduled;
otherwise advance by exactly the delta, except that reaching the total
duration clamps there and stops playback without rescheduling. -/
def masterClockLoop (now : ℚ) (s : VTMState) : VTMState :=
  if s.playing = false then { s with masterClockScheduled := false }
  else
    if 0 < (now - s.lastFrameTime) / 1000 ∧ (now - s.lastFrameTime) / 1000 < 1/10 then
      if s.totalDuration ≤ s.currentTime + (now - s.lastFrameTime) / 1000 then
        setPlaying false now (updateCurrentTimeInternal s.totalDuration false s)
      else
        { (updateCurrentTimeInternal
            (s.currentTime + (now - s.lastFrameTime) / 1000) false s)
            with lastFrameTime := now, masterClockScheduled := true }
    else { s with lastFrameTime := now, masterClockScheduled := true }

end VTM

theorem clamp_zero (td : ℚ) : max 0 (min 0 td) = 0 := by
  rcases le_total 0 td with h | h
  · rw [min_eq_left h, max_self]
  · rw [min_eq_right h, max_eq_left h]

theorem clamp_idem (g td : ℚ) :
    max 0 (min (max 0 (min g td)) td) = max 0 (min g td) := by
  rcases le_total 0 td with h | h
  · have h1 : max 0 (min g td) ≤ td := max_le h (min_le_right g td)
    rw [min_eq_left h1, max_eq_right (le_max_left 0 _)]
  · have h2 : min g td ≤ 0 := le_trans (min_le_right _ _) h
    rw [max_eq_left h2, min_eq_right h, max_eq_left h]

theorem updateCTI_currentTime (newTime : ℚ) (notifyAll : Bool) (s : VTMState) :
    (VTM.updateCurrentTimeInternal newTime notifyAll s).currentTime
      = max 0 (min newTime s.totalDuration) := by
  unfold VTM.updateCurrentTimeInternal
  split
  · next h => exact h
  · split <;>
      simp [VTM.notifyVideoPlayerInstruction, VTM.notifyTimelineChange,
        VTM.notifyCurrentTimeChange]

theorem updateCTI_playing (newTime : ℚ) (notifyAll : Bool) (s : VTMState) :
    (VTM.updateCurrentTimeInternal newTime notifyAll s).playing = s.playing := by
  unfold VTM.updateCurrentTimeInternal
  split
  · rfl
  · split <;>
      simp [VTM.notifyVideoPlayerInstruction, VTM.notifyTimelineChange,
        VTM.notifyCurrentTimeChange]

theorem setCurrentTime_currentTime (g now : ℚ) (s : VTMState) :
    (VTM.setCurrentTime g now s).currentTime = max 0 (min g s.totalDuration) := by
  unfold VTM.setCurrentTime
  split
  · next h => exact h
  · split <;>
      simp [VTM.startMasterClock, updateCTI_currentTime, clamp_idem]

theorem setCurrentTime_playing (g now : ℚ) (s : VTMState) :
    (VTM.setCurrentTime g now s).playing = s.playing := by
  unfold VTM.setCurrentTime
  split
  · rfl
  · split <;> simp [VTM.startMasterClock, updateCTI_playing]

/-- C5: for every master-clock tick while playing (with the standing VTM
invariants `0 ≤ totalDuration` and `0 ≤ currentTime`), a wall-clock delta
that is non-positive or at least 0.1 s leaves `currentTime` unchanged while
the clock stays scheduled and playing; a normal delta advances
`currentTime` by exactly the delta when the result stays below
`totalDuration`; and when the result reaches or exceeds `totalDuration`,
`currentTime` is clamped to `totalDuration`, playback stops and the loop is
not rescheduled. -/
theorem c5_masterClock (s : VTMState) (now : ℚ)
    (hp : s.playing = true) (hTD : 0 ≤ s.totalDuration) (hCT : 0 ≤ s.currentTime) :
    (((now - s.lastFrameTime) / 1000 ≤ 0 ∨ 1/10 ≤ (now - s.lastFrameTime) / 1000) →
      (VTM.masterClockLoop now s).currentTime = s.currentTime
      ∧ (VTM.masterClockLoop now s).masterClockScheduled = true
      ∧ (VTM.masterClockLoop now s).playing = true)
    ∧ ((0 < (now - s.lastFrameTime) / 1000 ∧ (now - s.lastFrameTime) / 1000 < 1/10
        ∧ s.currentTime + (now - s.lastFrameTime) / 1000 < s.totalDuration) →
      (VTM.masterClockLoop now s).currentTime
        = s.currentTime + (now - s.lastFrameTime) / 1000
      ∧ (VTM.masterClockLoop now s).masterClockScheduled = true)
    ∧ ((0 < (now - s.lastFrameTime) / 1000 ∧ (now - s.lastFrameTime) / 1000 < 1/10
        ∧ s.totalDuration ≤ s.currentTime + (now - s.lastFrameTime) / 1000) →
      (VTM.masterClockLoop now s).currentTime = s.totalDuration
      ∧ (VTM.masterClockLoop now s).playing = false
      ∧ (VTM.masterClockLoop now s).masterClockScheduled = false) := by
  have hploop : ¬ s.playing = false := by
    rw [hp]
    simp
  refine ⟨?_, ?_, ?_⟩
  · intro hskip
    unfold VTM.masterClockLoop
    rw [if_neg hploop, if_neg (by
      intro hcon
      rcases hskip with h | h
      · linarith [hcon.1]
      · linarith [hcon.2])]
    exact ⟨rfl, rfl, hp⟩
  · intro hgo
    unfold VTM.masterClockLoop
    rw [if_neg hploop, if_pos ⟨hgo.1, hgo.2.1⟩,
      if_neg (by push_neg; exact hgo.2.2)]
    refine ⟨?_, rfl⟩
    show (VTM.updateCurrentTimeInternal
      (s.currentTime + (now - s.lastFrameTime) / 1000) false s).currentTime
      = s.currentTime + (now - s.lastFrameTime) / 1000
    rw [updateCTI_currentTime,
      min_eq_left (le_of_lt hgo.2.2),
      max_eq_right (by linarith [hgo.1])]
  · intro hend
    unfold VTM.masterClockLoop
    rw [if_neg hploop, if_pos ⟨hend.1, hend.2.1⟩, if_pos hend.2.2]
    have hup : (VTM.updateCurrentTimeInternal s.totalDuration false s).playing
        = true := by
      rw [updateCTI_playing]
      exact hp
    have hupct : (VTM.updateCurrentTimeInternal s.totalDuration false s).currentTime
        = s.totalDuration := by
      rw [updateCTI_currentTime, min_self, max_eq_right hTD]
    unfold VTM.setPlaying
    rw [if_neg (by rw [hup]; simp)]
    refine ⟨?_, ?_, ?_⟩ <;>
      simp [VTM.notifyTimelineChange, VTM.stopMasterClock, hupct]

/-- C6: `setPlaying(true)` while paused with the playhead at or past the
end first rewinds `currentTime` to 0 and starts the clock (fresh frame
timestamp); `setPlaying(false)` while playing stops the clock; and calling
`setPlaying` with the current value is a strict no-op — the state,
including the subscriber log, is returned unchanged, so nothing is
notified. -/
theorem c6_setPlaying (s : VTMState) (now : ℚ) :
    (s.playing = false → s.totalDuration ≤ s.currentTime →
      (VTM.setPlaying true now s).currentTime = 0
      ∧ (VTM.setPlaying true now s).playing = true
      ∧ (VTM.setPlaying true now s).masterClockScheduled = true
      ∧ (VTM.setPlaying true now s).lastFrameTime = now)
    ∧ (s.playing = true →
      (VTM.setPlaying false now s).playing = false
      ∧ (VTM.setPlaying false now s).masterClockScheduled = false)
    ∧ (∀ b : Bool, s.playing = b → VTM.setPlaying b now s = s) := by
  refine ⟨?_, ?_, ?_⟩
  · intro hp hend
    unfold VTM.setPlaying
    rw [if_neg (by rw [hp]; simp), if_pos rfl,
      if_pos (show ({ s with playing := true } : VTMState).totalDuration
        ≤ ({ s with playing := true } : VTMState).currentTime from hend)]
    refine ⟨?_, ?_, ?_, ?_⟩
    · show (VTM.notifyTimelineChange (VTM.startMasterClock now
        (VTM.setCurrentTime 0 now { s with playing := true }))).currentTime = 0
      simp [VTM.notifyTimelineChange, VTM.startMasterClock,
        setCurrentTime_currentTime, clamp_zero]
    · show (VTM.notifyTimelineChange (VTM.startMasterClock now
        (VTM.setCurrentTime 0 now { s with playing := true }))).playing = true
      simp [VTM.notifyTimelineChange, VTM.startMasterClock, setCurrentTime_playing]
    · rfl
    · rfl
  · intro hp
    unfold VTM.setPlaying
    rw [if_neg (by rw [hp]; simp)]
    exact ⟨by simp [VTM.notifyTimelineChange, VTM.stopMasterClock],
      by simp [VTM.notifyTimelineChange, VTM.stopMasterClock]⟩
  · intro b hb
    unfold VTM.setPlaying
    rw [if_pos hb]

/-- C9: a `setCurrentTime` mutation that actually changes the stored time
completes with the new clamped time applied, and its subscriber log
extension consists of exactly one entry per subscribed callback across the
three channels, in channel and subscription order — so a callback that
throws is caught and recorded without preventing the invocation of any
other callback or the state change itself. -/
theorem c9_subscriberIsolation (s : VTMState) (g now : ℚ)
    (hne : s.currentTime ≠ max 0 (min g s.totalDuration)) :
    (VTM.setCurrentTime g now s).currentTime = max 0 (min g s.totalDuration)
    ∧ (VTM.setCurrentTime g now s).callbackLog
      = s.callbackLog
        ++ s.currentTimeChangeCallbacks.map
            (fun cb => VTM.notifyOutcome cb (max 0 (min g s.totalDuration)))
        ++ s.timelineChangeCallbacks.map
            (fun cb => VTM.notifyOutcome cb
              (VTM.getTimelineState
                { s with currentTime := max 0 (min g s.totalDuration) }))
        ++ s.videoPlayerCallbacks.map
            (fun cb => VTM.notifyOutcome cb
              (VTM.currentInstruction
                { s with currentTime := max 0 (min g s.totalDuration) })) := by
  refine ⟨setCurrentTime_currentTime g now s, ?_⟩
  have hlog : (VTM.updateCurrentTimeInternal (max 0 (min g s.totalDuration)) true
      s).callbackLog
      = s.callbackLog
        ++ s.currentTimeChangeCallbacks.map
            (fun cb => VTM.notifyOutcome cb (max 0 (min g s.totalDuration)))
        ++ s.timelineChangeCallbacks.map
            (fun cb => VTM.notifyOutcome cb
              (VTM.getTimelineState
                { s with currentTime := max 0 (min g s.totalDuration) }))
        ++ s.videoPlayerCallbacks.map
            (fun cb => VTM.notifyOutcome cb
              (VTM.currentInstruction
                { s with currentTime := max 0 (min g s.totalDuration) })) := by
    unfold VTM.updateCurrentTimeInternal
    rw [clamp_idem, if_neg hne]
    simp [VTM.notifyVideoPlayerInstruction, VTM.notifyTimelineChange,
      VTM.notifyCurrentTimeChange, VTM.getTimelineState, VTM.getCurrentClip,
      VTM.currentInstruction, List.append_assoc]
  unfold VTM.setCurrentTime
  rw [if_neg hne]
  split
  · rw [show ∀ x : VTMState, (VTM.startMasterClock now x).callbackLog
        = x.callbackLog from fun _ => rfl]
    exact hlog
  · exact hlog

/-- Playing state with an empty timeline of length 10 seconds. -/
def c5state : VTMState :=
  { cells := [], currentTime := 1, playing := true, totalDuration := 10,
    lastFrameTime := 0, masterClockScheduled := true,
    timelineChangeCallbacks := [], currentTimeChangeCallbacks := [],
    videoPlayerCallbacks := [], callbackLog := [] }

/-- Playing state close to the end of the timeline. -/
def c5state2 : VTMState :=
  { cells := [], currentTime := 199/20, playing := true, totalDuration := 10,
    lastFrameTime := 0, masterClockScheduled := true,
    timelineChangeCallbacks := [], currentTimeChangeCallbacks := [],
    videoPlayerCallbacks := [], callbackLog := [] }

theorem c5_witness :
    (VTM.masterClockLoop 500 c5state).currentTime = 1
    ∧ (VTM.masterClockLoop 500 c5state).masterClockScheduled = true
    ∧ (VTM.masterClockLoop 10 c5state).currentTime = 101/100
    ∧ (VTM.masterClockLoop 60 c5state2).currentTime = 10
    ∧ (VTM.masterClockLoop 60 c5state2).playing = false := by
  have h1 := (c5_masterClock c5state 500 rfl (by norm_num [c5state])
    (by norm_num [c5state])).1 (Or.inr (by norm_num [c5state]))
  have h2 := (c5_masterClock c5state 10 rfl (by norm_num [c5state])
    (by norm_num [c5state])).2.1
    (by refine ⟨?_, ?_, ?_⟩ <;> norm_num [c5state])
  have h3 := (c5_masterClock c5state2 60 rfl (by norm_num [c5state2])
    (by norm_num [c5state2])).2.2
    (by refine ⟨?_, ?_, ?_⟩ <;> norm_num [c5state2])
  refine ⟨?_, h1.2.1, ?_, ?_, h3.2.1⟩
  · rw [h1.1]
    rfl
  · rw [h2.1]
    norm_num [c5state]
  · rw [h3.1]
    norm_num [c5state2]

/-- Paused state with the playhead exactly at the end. -/
def c6state : VTMState :=
  { cells := [], currentTime := 10, playing := false, totalDuration := 10,
    lastFrameTime := 0, masterClockScheduled := false,
    timelineChangeCallbacks := [], currentTimeChangeCallbacks := [],
    videoPlayerCallbacks := [], callbackLog := [] }

theorem c6_witness :
    (VTM.setPlaying true 7 c6state).currentTime = 0
    ∧ (VTM.setPlaying true 7 c6state).playing = true
    ∧ (VTM.setPlaying true 7 c6state).masterClockScheduled = true
    ∧ (VTM.setPlaying true 7 c6state).lastFrameTime = 7
    ∧ VTM.setPlaying false 7 c6state = c6state := by
  have h1 := (c6_setPlaying c6state 7).1 rfl (by norm_num [c6state])
  have h3 := (c6_setPlaying c6state 7).2.2 false rfl
  exact ⟨h1.1, h1.2.1, h1.2.2.1, h1.2.2.2, h3⟩

/-- State with one throwing and one normal current-time subscriber, a
normal timeline subscriber and a throwing video-player subscriber. -/
def c9state : VTMState :=
  { cells := [], currentTime := 0, playing := false, totalDuration := 10,
    lastFrameTime := 0, masterClockScheduled := false,
    timelineChangeCallbacks := [fun _ => Except.ok ()],
    currentTimeChangeCallbacks :=
      [fun _ => Except.error ("boom"), fun _ => Except.ok ()],
    videoPlayerCallbacks := [fun _ => Except.error ("video")],
    callbackLog := [] }

theorem c9_witness :
    (VTM.setCurrentTime 5 0 c9state).currentTime = 5
    ∧ (VTM.setCurrentTime 5 0 c9state).callbackLog
      = [some ("boom"), none, none, some ("video")] := by
  have h := c9_subscriberIsolation c9state 5 0 (by norm_num [c9state])
  constructor
  · rw [h.1]
    norm_num [c9state]
  · rw [h.2]
    norm_num [c9state, VTM.notifyOutcome]

end ToyEditor
